import Mathlib

/-!
Shallow embedding of pyglet/model/__init__.py.

The first part embeds the decoder-resolution protocol of `load`
(lines 116-141 of the source): the explicit-decoder path, the fallback
loop over the candidate decoders, the ranking of decode failures by
exception priority, the seek-to-zero between attempts, and the
close-in-finally discipline.  The stream is modelled as a position plus a
closed flag, and the observable actions of `load` (decode calls with
their start position, seeks to offset zero, closing the file) are
recorded in a trace.

The second part embeds the `Model` aggregate (transform setters that fan
out to the owned groups, and the batch setter with its migration calls)
and the material rendering groups (model-view matrix construction,
equality and hashing).
-/

set_option autoImplicit false

namespace PygletModel

/-- Modelled from the spec: `ModelDecodeException` is defined in the
codecs module, which is not among the sources here.  The spec describes
it as a value carrying a human-readable message and a numeric exception
priority used to rank failures from competing decoders. -/
structure ModelDecodeException where
  exception_priority : Int
  message : String
  deriving DecidableEq, Repr

/-- State of the seekable file object `load` operates on: current stream
position and whether `close` has been called on it. -/
structure FileState where
  pos : Nat
  closed : Bool
  deriving DecidableEq, Repr

/-- A freshly opened (or freshly buffered in-memory) file: position 0,
not closed.  This is the state `load` starts from when it opens
`filename` itself (line 117) or wraps a non-seekable source (line 120). -/
def openedFile : FileState := { pos := 0, closed := false }

/-- Decoder capability object.  `decode` reads the stream from the given
position and either returns the decoded model together with the position
it leaves the stream at, or raises a `ModelDecodeException`.  The
`filename` and `batch` arguments of the source's
`decoder.decode(file, filename, batch)` are identical for every attempt
of one `load` call and are therefore left implicit. -/
structure ModelDecoder (M : Type) where
  decode : Nat → Except ModelDecodeException M × Nat

/-- Observable actions `load` performs: invoking candidate number `idx`
with the stream at `startPos`, seeking the stream back to offset zero,
and closing the file. -/
inductive TraceEvent where
  | decodeCall (idx : Nat) (startPos : Nat)
  | seekZero
  | close
  deriving DecidableEq, Repr

/-- Outcome of `load`: a decoded model, the
"No decoders are available for this model format." error raised at line
138 when no failure was captured, or the retained decode failure
re-raised at line 139. -/
inductive LoadResult (M : Type) where
  | model (m : M)
  | noDecodersError
  | decodeError (e : ModelDecodeException)
  deriving DecidableEq, Repr

/-- Lines 132-134 of the source: `first_exception` is replaced when it is
absent or when the new failure has strictly higher exception priority. -/
def updateFirst (first_exception : Option ModelDecodeException)
    (e : ModelDecodeException) : Option ModelDecodeException :=
  match first_exception with
  | none => some e
  | some f => if f.exception_priority < e.exception_priority then some e else some f

/-- The comparison of lines 132-134 restricted to the case where a
failure has already been retained: the newly seen failure replaces the
retained one only when its priority is strictly higher, so a tie keeps
the earlier one. -/
def pickMax (f e : ModelDecodeException) : ModelDecodeException :=
  if f.exception_priority < e.exception_priority then e else f

/-- Lines 126-139 of the source: the fallback loop over
`get_decoders(filename)`.  `idx` numbers the candidates for the trace.
A successful decode returns the model at once; a decode failure updates
`first_exception` and seeks the stream back to offset zero before the
next candidate runs; an exhausted list raises the retained failure, or
the no-decoders error when none was captured. -/
def loadLoop {M : Type} (ds : List (ModelDecoder M)) (idx : Nat)
    (file : FileState) (first_exception : Option ModelDecodeException) :
    LoadResult M × FileState × List TraceEvent :=
  match ds with
  | [] =>
    match first_exception with
    | none => (.noDecodersError, file, [])
    | some e => (.decodeError e, file, [])
  | decoder :: rest =>
    match (decoder.decode file.pos).1 with
    | .ok m =>
      (.model m, { file with pos := (decoder.decode file.pos).2 },
        [.decodeCall idx file.pos])
    | .error e =>
      let r := loadLoop rest (idx + 1) { file with pos := 0 }
        (updateFirst first_exception e)
      (r.1, r.2.1, .decodeCall idx file.pos :: .seekZero :: r.2.2)

/-- Lines 122-141 of the source, after the file has been opened or
wrapped so that it is seekable: an explicitly supplied decoder is tried
alone and any failure propagates without ranking or fallback; otherwise
the fallback loop runs over the candidates; the `finally` clause closes
the file on every exit path. -/
def load {M : Type} (decoder : Option (ModelDecoder M))
    (decoders : List (ModelDecoder M)) (file : FileState) :
    LoadResult M × FileState × List TraceEvent :=
  match decoder with
  | some d =>
    match (d.decode file.pos).1 with
    | .ok m =>
      (.model m, { pos := (d.decode file.pos).2, closed := true },
        [.decodeCall 0 file.pos, .close])
    | .error e =>
      (.decodeError e, { pos := (d.decode file.pos).2, closed := true },
        [.decodeCall 0 file.pos, .close])
  | none =>
    let r := loadLoop decoders 0 file none
    (r.1, { r.2.1 with closed := true }, r.2.2 ++ [.close])

/-- The result `load` returns, or the exception it raises. -/
def loadResult {M : Type} (decoder : Option (ModelDecoder M))
    (decoders : List (ModelDecoder M)) (file : FileState) : LoadResult M :=
  (load decoder decoders file).1

/-- The state of the file object after `load` finishes. -/
def loadFile {M : Type} (decoder : Option (ModelDecoder M))
    (decoders : List (ModelDecoder M)) (file : FileState) : FileState :=
  (load decoder decoders file).2.1

/-- The trace of observable actions `load` performs, in order. -/
def loadTrace {M : Type} (decoder : Option (ModelDecoder M))
    (decoders : List (ModelDecoder M)) (file : FileState) : List TraceEvent :=
  (load decoder decoders file).2.2

/-- Lines 226-236 of the source: surface-appearance value shared by the
groups that draw parts with the same appearance.  `S` is the scalar type
of the color components. -/
structure Material (S : Type) where
  name : String
  diffuse : S × S × S × S
  ambient : S × S × S × S
  specular : S × S × S × S
  emission : S × S × S × S
  shininess : S
  texture_name : Option String
  deriving DecidableEq, Repr

/-- Lines 241-251 of the source: the state of a `BaseMaterialGroup` that
the claims touch — its material, its local rotation and translation
(arbitrary triples assigned by the `Model` setters), and the identity of
its parent group, `id(self.parent)`, used by the hash methods.  The
shared default shader program is an external object and is not
modelled. -/
structure BaseMaterialGroup (S : Type) where
  material : Material S
  rotation : S × S × S
  translation : S × S × S
  parentId : Nat
  deriving DecidableEq, Repr

/-- The primitive topology argument of `Batch.migrate`; the source always
passes `GL_TRIANGLES`. -/
inductive PrimMode where
  | points
  | lines
  | triangles
  deriving DecidableEq, Repr

/-- One call `self._batch.migrate(vlist, GL_TRIANGLES, group, batch)`
issued by the batch setter (line 193 of the source): the batch it is
invoked on, the vertex list, the topology, the group, and the target
batch. -/
structure MigrateCall (VL B S : Type) where
  src : B
  vlist : VL
  mode : PrimMode
  group : BaseMaterialGroup S
  dst : B
  deriving DecidableEq, Repr

/-- Lines 150-169 of the source: the `Model` aggregate.  `vertex_lists`
and `groups` are parallel lists; `batch`, `rotation` and `translation`
are the `_batch`, `_rotation` and `_translation` attributes. -/
structure Model (VL B S : Type) where
  vertex_lists : List VL
  groups : List (BaseMaterialGroup S)
  batch : B
  rotation : S × S × S
  translation : S × S × S
  deriving DecidableEq, Repr

/-- Lines 201-205 of the source, the `rotation` setter: store the new
value and fan it out to every owned group. -/
def Model.setRotation {VL B S : Type} (m : Model VL B S) (values : S × S × S) :
    Model VL B S :=
  { m with
    rotation := values,
    groups := m.groups.map fun g => { g with rotation := values } }

/-- Lines 211-215 of the source, the `translation` setter: store the new
value and fan it out to every owned group. -/
def Model.setTranslation {VL B S : Type} (m : Model VL B S) (values : S × S × S) :
    Model VL B S :=
  { m with
    translation := values,
    groups := m.groups.map fun g => { g with translation := values } }

/-- Lines 184-195 of the source, the `batch` setter.  `batchArg` is the
assigned value (`None` or a batch); `freshBatch` is the batch a fresh
`graphics.Batch()` allocation would return.  Equality of batch objects
is identity, and the model's own batch is an actual batch, so
`self._batch == batch` holds exactly when `batchArg` is `some m.batch`.
Returns the updated model together with the list of `migrate` calls
issued, in order. -/
def Model.setBatch {VL B S : Type} [DecidableEq B] (m : Model VL B S)
    (batchArg : Option B) (freshBatch : B) :
    Model VL B S × List (MigrateCall VL B S) :=
  if batchArg = some m.batch then
    (m, [])
  else
    let newBatch := batchArg.getD freshBatch
    let calls := (m.groups.zip m.vertex_lists).map fun gv =>
      { src := m.batch, vlist := gv.2, mode := PrimMode.triangles,
        group := gv.1, dst := newBatch }
    ({ m with batch := newBatch }, calls)

/-- An angle value as handed to `Mat4.rotate`: the result of applying
`math.radians` (an external function) to a value given in degrees. -/
inductive RotationAngle (S : Type) where
  | radians (degrees : S)
  deriving DecidableEq, Repr

/-- Symbolic matrix expressions over the external `pyglet.math.Mat4`
library: translation matrices built by `Mat4.from_translation`, rotation
matrices built by `Mat4().rotate(angle, x=., y=., z=.)` from the
identity, and the matrix product `@`. -/
inductive Mat4Expr (S : Type) where
  | fromTranslation (x y z : S)
  | identityRotate (angle : RotationAngle S) (x y z : Nat)
  | matmul (a b : Mat4Expr S)
  deriving DecidableEq, Repr

/-- Lines 253-259 of the source,
`BaseMaterialGroup._set_modelview_matrix`: the view matrix written into
the shared `WindowBlock` uniform buffer.  Python's `@` associates to the
left, so `rotate_z @ rotate_y @ rotate_x @ translate` is
`((rotate_z @ rotate_y) @ rotate_x) @ translate`. -/
def BaseMaterialGroup.set_modelview_matrix {S : Type} (g : BaseMaterialGroup S) :
    Mat4Expr S :=
  let translate := Mat4Expr.fromTranslation g.translation.1 g.translation.2.1
    g.translation.2.2
  let rotate_x := Mat4Expr.identityRotate (.radians g.rotation.1) 1 0 0
  let rotate_y := Mat4Expr.identityRotate (.radians g.rotation.2.1) 0 1 0
  let rotate_z := Mat4Expr.identityRotate (.radians g.rotation.2.2) 0 0 1
  Mat4Expr.matmul (Mat4Expr.matmul (Mat4Expr.matmul rotate_z rotate_y) rotate_x)
    translate

/-- An OpenGL texture as the groups see it: `texture.id` and
`texture.target`. -/
structure Texture where
  id : Nat
  target : Nat
  deriving DecidableEq, Repr

/-- Lines 265-329 of the source: the textured material group.  Shader
sources and GL state calls are external; the fields below are the data
its equality, hashing and matrix code read. -/
structure TexturedMaterialGroup (S : Type) extends BaseMaterialGroup S where
  texture : Texture
  deriving DecidableEq, Repr

/-- Lines 332-384 of the source: the untextured material group. -/
structure MaterialGroup (S : Type) extends BaseMaterialGroup S where
  deriving DecidableEq, Repr

/-- Line 325-326 of the source: `TexturedMaterialGroup.__eq__` returns
`False` for every operand, of any type, including the group itself. -/
def TexturedMaterialGroup.eq {S : Type} {A : Type}
    (_self : TexturedMaterialGroup S) (_other : A) : Bool :=
  false

/-- Line 380-381 of the source: `MaterialGroup.__eq__` returns `False`
for every operand, of any type, including the group itself. -/
def MaterialGroup.eq {S : Type} {A : Type}
    (_self : MaterialGroup S) (_other : A) : Bool :=
  false

/-- Stand-in for the host language's total hash of a 3-tuple of
integers: any total function of exactly the three components. -/
def pyTupleHash3 (a b c : Nat) : Nat :=
  Nat.pair a (Nat.pair b c)

/-- Stand-in for the host language's total hash of a single integer. -/
def pyIntHash (n : Nat) : Nat :=
  n

/-- Lines 328-329 of the source: `TexturedMaterialGroup.__hash__` hashes
the tuple `(id(self.parent), self.texture.id, self.texture.target)`. -/
def TexturedMaterialGroup.hashValue {S : Type} (g : TexturedMaterialGroup S) : Nat :=
  pyTupleHash3 g.parentId g.texture.id g.texture.target

/-- Lines 383-384 of the source: `MaterialGroup.__hash__` hashes
`(id(self.parent))`, which is the parent identity itself (the
parenthesised expression is not a tuple). -/
def MaterialGroup.hashValue {S : Type} (g : MaterialGroup S) : Nat :=
  pyIntHash g.parentId

/-- A decoder that always fails with the given exception and leaves the
stream position where it was. -/
def failDec {M : Type} (e : ModelDecodeException) : ModelDecoder M :=
  { decode := fun p => (.error e, p) }

/-- A decoder that always succeeds with the given model after consuming
`n` bytes of the stream. -/
def okDec {M : Type} (m : M) (n : Nat) : ModelDecoder M :=
  { decode := fun p => (.ok m, p + n) }

/-- A sample material, used by the concrete witnesses. -/
def sampleMaterial : Material Int :=
  { name := "red", diffuse := (1, 0, 0, 1), ambient := (0, 0, 0, 1),
    specular := (0, 0, 0, 1), emission := (0, 0, 0, 1), shininess := 32,
    texture_name := none }

/-- A sample texture, used by the concrete witnesses. -/
def sampleTexture : Texture := { id := 3, target := 10 }

/-- A sample textured group, used by the concrete witnesses. -/
def sampleTexturedGroup : TexturedMaterialGroup Int :=
  { material := sampleMaterial, rotation := (0, 0, 0), translation := (0, 0, 0),
    parentId := 7, texture := sampleTexture }

/-- A second sample textured group with the same material and texture,
used by the concrete witnesses. -/
def sampleTexturedGroupB : TexturedMaterialGroup Int :=
  { material := sampleMaterial, rotation := (0, 0, 0), translation := (0, 0, 0),
    parentId := 7, texture := sampleTexture }

/-- A sample untextured group, used by the concrete witnesses. -/
def sampleGroup : MaterialGroup Int :=
  { material := sampleMaterial, rotation := (0, 0, 0), translation := (0, 0, 0),
    parentId := 7 }

/-- A sample model with two parts, used by the concrete witnesses. -/
def sampleModel : Model Nat Nat Int :=
  { vertex_lists := [10, 11],
    groups := [sampleGroup.toBaseMaterialGroup, sampleTexturedGroup.toBaseMaterialGroup],
    batch := 1, rotation := (0, 0, 0), translation := (0, 0, 0) }

/-- Sample decode failures of priorities 1, 2 and 2, used by the
concrete witnesses. -/
def sampleExc1 : ModelDecodeException := { exception_priority := 1, message := "bad magic" }

/-- Second sample decode failure, priority 2, seen before
`sampleExc2B`. -/
def sampleExc2 : ModelDecodeException := { exception_priority := 2, message := "truncated" }

/-- Third sample decode failure, also priority 2, seen after
`sampleExc2`. -/
def sampleExc2B : ModelDecodeException := { exception_priority := 2, message := "bad index" }

section Theorems

/-! Helper lemmas shared by the claim theorems. -/

theorem updateFirst_isSome (acc : Option ModelDecodeException)
    (e : ModelDecodeException) : (updateFirst acc e).isSome := by
  cases acc with
  | none => rfl
  | some f =>
    simp only [updateFirst]
    split <;> rfl

theorem close_notMem_loadLoop_trace {M : Type} (ds : List (ModelDecoder M)) :
    ∀ (idx : Nat) (file : FileState) (acc : Option ModelDecodeException),
      TraceEvent.close ∉ (loadLoop ds idx file acc).2.2 := by
  induction ds with
  | nil =>
    intro idx file acc
    cases acc <;> simp [loadLoop]
  | cons d rest ih =>
    intro idx file acc
    cases h : (d.decode file.pos).1 with
    | ok m => simp [loadLoop, h]
    | error e =>
      simp only [loadLoop, h, List.mem_cons]
      push_neg
      exact ⟨by simp, by simp, ih (idx + 1) { file with pos := 0 } (updateFirst acc e)⟩

theorem loadLoop_ne_noDecoders {M : Type} (ds : List (ModelDecoder M)) :
    ∀ (idx : Nat) (file : FileState) (acc : Option ModelDecodeException),
      acc.isSome = true ∨ ds ≠ [] →
      (loadLoop ds idx file acc).1 ≠ LoadResult.noDecodersError := by
  induction ds with
  | nil =>
    intro idx file acc hacc
    rcases hacc with hacc | hne
    · cases acc with
      | none => simp at hacc
      | some e => simp [loadLoop]
    · exact absurd rfl hne
  | cons d rest ih =>
    intro idx file acc _
    cases h : (d.decode file.pos).1 with
    | ok m => simp [loadLoop, h]
    | error e =>
      simp only [loadLoop, h]
      exact ih (idx + 1) { file with pos := 0 } (updateFirst acc e)
        (Or.inl (updateFirst_isSome acc e))

theorem updateFirst_some (f e : ModelDecodeException) :
    updateFirst (some f) e = some (pickMax f e) := by
  simp only [updateFirst, pickMax]
  split <;> rfl

theorem foldl_updateFirst_some (l : List ModelDecodeException) :
    ∀ f : ModelDecodeException,
      l.foldl updateFirst (some f) = some (l.foldl pickMax f) := by
  induction l with
  | nil => intro f; rfl
  | cons e es ih =>
    intro f
    rw [List.foldl_cons, List.foldl_cons, updateFirst_some]
    exact ih (pickMax f e)

/-- Characterisation of the running maximum kept by lines 132-134: the
retained failure is either the initial one (when nothing in the list
beats it strictly) or the first list element of maximal priority that
strictly beats the initial one. -/
theorem foldl_pickMax_spec (l : List ModelDecodeException) :
    ∀ acc : ModelDecodeException,
      (l.foldl pickMax acc = acc ∧
        ∀ e ∈ l, e.exception_priority ≤ acc.exception_priority) ∨
      (∃ i, ∃ hi : i < l.length,
        l.foldl pickMax acc = l.get ⟨i, hi⟩ ∧
        acc.exception_priority < (l.get ⟨i, hi⟩).exception_priority ∧
        (∀ e ∈ l, e.exception_priority ≤ (l.get ⟨i, hi⟩).exception_priority) ∧
        ∀ j, ∀ hj : j < i,
          (l.get ⟨j, Nat.lt_trans hj hi⟩).exception_priority <
            (l.get ⟨i, hi⟩).exception_priority) := by
  induction l with
  | nil =>
    intro acc
    exact Or.inl ⟨rfl, by simp⟩
  | cons e es ih =>
    intro acc
    rw [List.foldl_cons]
    by_cases hlt : acc.exception_priority < e.exception_priority
    · have hacc : pickMax acc e = e := if_pos hlt
      rw [hacc]
      rcases ih e with ⟨hr, hb⟩ | ⟨i, hi, hr, hgt, hb, hf⟩
      · refine Or.inr ⟨0, Nat.succ_pos _, ?_, ?_, ?_, ?_⟩
        · simpa using hr
        · simpa using hlt
        · intro x hx
          rcases List.mem_cons.1 hx with rfl | hx
          · simp
          · simpa using hb x hx
        · intro j hj
          exact absurd hj (Nat.not_lt_zero j)
      · refine Or.inr ⟨i + 1, Nat.succ_lt_succ hi, ?_, ?_, ?_, ?_⟩
        · simpa using hr
        · simpa using lt_trans hlt hgt
        · intro x hx
          rcases List.mem_cons.1 hx with rfl | hx
          · simpa using le_of_lt hgt
          · simpa using hb x hx
        · intro j hj
          match j, hj with
          | 0, _ => simpa using hgt
          | j + 1, hj => simpa using hf j (Nat.lt_of_succ_lt_succ hj)
    · have hacc : pickMax acc e = acc := if_neg hlt
      rw [hacc]
      rcases ih acc with ⟨hr, hb⟩ | ⟨i, hi, hr, hgt, hb, hf⟩
      · refine Or.inl ⟨hr, ?_⟩
        intro x hx
        rcases List.mem_cons.1 hx with rfl | hx
        · exact le_of_not_lt hlt
        · exact hb x hx
      · refine Or.inr ⟨i + 1, Nat.succ_lt_succ hi, ?_, ?_, ?_, ?_⟩
        · simpa using hr
        · simpa using hgt
        · intro x hx
          rcases List.mem_cons.1 hx with rfl | hx
          · simpa using le_trans (le_of_not_lt hlt) (le_of_lt hgt)
          · simpa using hb x hx
        · intro j hj
          match j, hj with
          | 0, _ => simpa using lt_of_le_of_lt (le_of_not_lt hlt) hgt
          | j + 1, hj => simpa using hf j (Nat.lt_of_succ_lt_succ hj)

/-- When every candidate fails (each at stream position 0, which is
where every attempt runs), the loop result is determined by folding the
retained-failure update over the list of failures. -/
theorem loadLoop_all_fail {M : Type} {ds : List (ModelDecoder M)}
    {excs : List ModelDecodeException}
    (hfail : List.Forall₂ (fun d e => (d.decode 0).1 = Except.error e) ds excs) :
    ∀ (idx : Nat) (file : FileState), file.pos = 0 →
    ∀ acc, (loadLoop ds idx file acc).1 =
      match excs.foldl updateFirst acc with
      | none => LoadResult.noDecodersError
      | some e => LoadResult.decodeError e := by
  induction hfail with
  | nil =>
    intro idx file _ acc
    cases acc <;> simp [loadLoop]
  | cons h1 h2 ih =>
    intro idx file hpos acc
    simp only [loadLoop, hpos, h1, List.foldl_cons]
    exact ih (idx + 1) { file with pos := 0 } rfl (updateFirst acc _)

/-- C1: when every candidate decoder fails, `load` raises the captured
failure with the maximum priority among all candidates; on equal
priorities the failure encountered first in candidate order is the one
raised, because the retained failure is replaced only by a strictly
higher priority. -/
theorem load_all_fail_raises_max_priority_first_tie (M : Type)
    (decoders : List (ModelDecoder M)) (excs : List ModelDecodeException)
    (hfail : List.Forall₂ (fun d e => (d.decode 0).1 = Except.error e)
      decoders excs)
    (hne : decoders ≠ []) :
    ∃ i, ∃ hi : i < excs.length,
      loadResult none decoders openedFile =
        LoadResult.decodeError (excs.get ⟨i, hi⟩) ∧
      (∀ e ∈ excs,
        e.exception_priority ≤ (excs.get ⟨i, hi⟩).exception_priority) ∧
      ∀ j, ∀ hj : j < i,
        (excs.get ⟨j, Nat.lt_trans hj hi⟩).exception_priority <
          (excs.get ⟨i, hi⟩).exception_priority := by
  cases hfail with
  | nil => exact absurd rfl hne
  | @cons d e ds es h1 h2 =>
    have hres : loadResult none (d :: ds) openedFile =
        match (e :: es).foldl updateFirst none with
        | none => LoadResult.noDecodersError
        | some x => LoadResult.decodeError x := by
      show (load none (d :: ds) openedFile).1 = _
      simp only [load]
      exact loadLoop_all_fail (List.Forall₂.cons h1 h2) 0 openedFile rfl none
    rw [List.foldl_cons] at hres
    have hupd : updateFirst none e = some e := rfl
    rw [hupd, foldl_updateFirst_some] at hres
    rcases foldl_pickMax_spec es e with ⟨hr, hb⟩ | ⟨i, hi, hr, hgt, hb, hf⟩
    · refine ⟨0, Nat.succ_pos _, ?_, ?_, ?_⟩
      · rw [hres, hr]
        rfl
      · intro x hx
        rcases List.mem_cons.1 hx with rfl | hx
        · simp
        · simpa using hb x hx
      · intro j hj
        exact absurd hj (Nat.not_lt_zero j)
    · refine ⟨i + 1, Nat.succ_lt_succ hi, ?_, ?_, ?_⟩
      · rw [hres, hr]
        simp
      · intro x hx
        rcases List.mem_cons.1 hx with rfl | hx
        · simpa using le_of_lt hgt
        · simpa using hb x hx
      · intro j hj
        match j, hj with
        | 0, _ => simpa using hgt
        | j + 1, hj => simpa using hf j (Nat.lt_of_succ_lt_succ hj)

/-- Witness for C1: three always-failing decoders with priorities 1, 2
and 2; the raised failure is the first of the two priority-2 ones. -/
theorem load_all_fail_raises_max_priority_first_tie_witness :
    ∃ i, ∃ hi : i < [sampleExc1, sampleExc2, sampleExc2B].length,
      loadResult none
          [failDec (M := Unit) sampleExc1, failDec sampleExc2,
            failDec sampleExc2B] openedFile =
        LoadResult.decodeError
          ([sampleExc1, sampleExc2, sampleExc2B].get ⟨i, hi⟩) ∧
      (∀ e ∈ [sampleExc1, sampleExc2, sampleExc2B], e.exception_priority ≤
        ([sampleExc1, sampleExc2, sampleExc2B].get ⟨i, hi⟩).exception_priority) ∧
      ∀ j, ∀ hj : j < i,
        ([sampleExc1, sampleExc2, sampleExc2B].get
            ⟨j, Nat.lt_trans hj hi⟩).exception_priority <
          ([sampleExc1, sampleExc2, sampleExc2B].get ⟨i, hi⟩).exception_priority :=
  load_all_fail_raises_max_priority_first_tie Unit
    [failDec sampleExc1, failDec sampleExc2, failDec sampleExc2B]
    [sampleExc1, sampleExc2, sampleExc2B]
    (List.Forall₂.cons rfl (List.Forall₂.cons rfl
      (List.Forall₂.cons rfl List.Forall₂.nil)))
    (by simp)

/-- C3: on every exit path of `load` — successful decode, failure of an
explicitly supplied decoder, and exhausted fallback over all candidates
— the file stream is closed exactly once (exactly one close action in
the trace, as the last action) before `load` returns or the exception
propagates. -/
theorem load_closes_file_exactly_once {M : Type}
    (decoder : Option (ModelDecoder M)) (decoders : List (ModelDecoder M))
    (file : FileState) :
    (loadTrace decoder decoders file).count TraceEvent.close = 1 ∧
    (loadTrace decoder decoders file).getLast? = some TraceEvent.close ∧
    (loadFile decoder decoders file).closed = true := by
  cases decoder with
  | some d =>
    cases h : (d.decode file.pos).1 <;>
      simp [loadTrace, loadFile, load, h, List.count_cons]
  | none =>
    refine ⟨?_, ?_, ?_⟩
    · have hnot := close_notMem_loadLoop_trace decoders 0 file none
      simp [loadTrace, load, List.count_append,
        List.count_eq_zero_of_not_mem hnot]
    · simp [loadTrace, load]
    · simp [loadFile, load]

/-- C5: `load` without an explicit decoder raises the
"No decoders are available for this model format." error exactly when
the candidate list is empty, and in that case no decode attempt is ever
made; with an explicit decoder or a non-empty candidate list that error
is never raised. -/
theorem load_no_decoders_error_iff_empty_candidates {M : Type}
    (decoder : Option (ModelDecoder M)) (decoders : List (ModelDecoder M))
    (file : FileState) :
    (loadResult decoder decoders file = LoadResult.noDecodersError ↔
      decoder = none ∧ decoders = []) ∧
    (∀ i p, TraceEvent.decodeCall i p ∉ loadTrace (M := M) none [] file) := by
  constructor
  · cases decoder with
    | some d =>
      cases h : (d.decode file.pos).1 <;> simp [loadResult, load, h]
    | none =>
      cases decoders with
      | nil => simp [loadResult, load, loadLoop]
      | cons d rest =>
        have hne := loadLoop_ne_noDecoders (d :: rest) 0 file none
          (Or.inr (by simp))
        simp only [loadResult, load]
        simp [hne]
  · intro i p
    simp [loadTrace, load, loadLoop]

/-- C6: after the rotation (respectively translation) setter runs with a
value `v`, the model's stored rotation (translation) equals `v` and
every group in `model.groups` has its corresponding field equal to
`v`. -/
theorem model_transform_setters_fan_out {VL B S : Type} (m : Model VL B S)
    (v : S × S × S) :
    ((m.setRotation v).rotation = v ∧
      ∀ g ∈ (m.setRotation v).groups, g.rotation = v) ∧
    ((m.setTranslation v).translation = v ∧
      ∀ g ∈ (m.setTranslation v).groups, g.translation = v) := by
  refine ⟨⟨rfl, ?_⟩, ⟨rfl, ?_⟩⟩
  all_goals
    intro g hg
    simp only [Model.setRotation, Model.setTranslation, List.mem_map] at hg
    obtain ⟨g0, -, rfl⟩ := hg
    rfl

/-- C7: the batch setter is a no-op when the assigned batch is the
current one; assigning `None` installs the freshly allocated batch;
otherwise it issues one `migrate` call on the old batch per
(group, vertex-list) pair, with triangle topology, that pair's own group
and the new batch as target, and the new batch becomes the model's
batch. -/
theorem model_batch_setter_cases {VL B S : Type} [DecidableEq B]
    (m : Model VL B S) (freshBatch : B) :
    (m.setBatch (some m.batch) freshBatch = (m, [])) ∧
    ((m.setBatch none freshBatch).1.batch = freshBatch ∧
      (m.setBatch none freshBatch).2 = (m.groups.zip m.vertex_lists).map
        (fun gv =>
          { src := m.batch, vlist := gv.2, mode := PrimMode.triangles,
            group := gv.1, dst := freshBatch })) ∧
    (∀ b : B, b ≠ m.batch →
      (m.setBatch (some b) freshBatch).1.batch = b ∧
      (m.setBatch (some b) freshBatch).2 = (m.groups.zip m.vertex_lists).map
        (fun gv =>
          { src := m.batch, vlist := gv.2, mode := PrimMode.triangles,
            group := gv.1, dst := b }) ∧
      ∀ c ∈ (m.setBatch (some b) freshBatch).2,
        c.src = m.batch ∧ c.mode = PrimMode.triangles ∧ c.dst = b) := by
  refine ⟨?_, ⟨?_, ?_⟩, ?_⟩
  · simp [Model.setBatch]
  · simp [Model.setBatch]
  · simp [Model.setBatch]
  · intro b hb
    have hmap : (m.setBatch (some b) freshBatch).2 =
        (m.groups.zip m.vertex_lists).map
          (fun gv =>
            { src := m.batch, vlist := gv.2, mode := PrimMode.triangles,
              group := gv.1, dst := b }) := by
      simp [Model.setBatch, hb, Option.getD_some]
    refine ⟨by simp [Model.setBatch, hb, Option.getD_some], hmap, ?_⟩
    intro c hc
    rw [hmap] at hc
    obtain ⟨gv, -, rfl⟩ := List.mem_map.1 hc
    exact ⟨rfl, rfl, rfl⟩

/-- C8: the model-view matrix uploaded by `set_state` of either group
variant is composed in the fixed order
`Rz(rotation.z) * Ry(rotation.y) * Rx(rotation.x) * Translate(translation)`,
with each rotation angle given in degrees and converted to radians
before use. -/
theorem set_modelview_matrix_composition {S : Type} (g : BaseMaterialGroup S)
    (gt : TexturedMaterialGroup S) (gm : MaterialGroup S) :
    g.set_modelview_matrix =
      Mat4Expr.matmul
        (Mat4Expr.matmul
          (Mat4Expr.matmul
            (Mat4Expr.identityRotate (RotationAngle.radians g.rotation.2.2) 0 0 1)
            (Mat4Expr.identityRotate (RotationAngle.radians g.rotation.2.1) 0 1 0))
          (Mat4Expr.identityRotate (RotationAngle.radians g.rotation.1) 1 0 0))
        (Mat4Expr.fromTranslation g.translation.1 g.translation.2.1
          g.translation.2.2) ∧
    gt.toBaseMaterialGroup.set_modelview_matrix =
      Mat4Expr.matmul
        (Mat4Expr.matmul
          (Mat4Expr.matmul
            (Mat4Expr.identityRotate (RotationAngle.radians gt.rotation.2.2) 0 0 1)
            (Mat4Expr.identityRotate (RotationAngle.radians gt.rotation.2.1) 0 1 0))
          (Mat4Expr.identityRotate (RotationAngle.radians gt.rotation.1) 1 0 0))
        (Mat4Expr.fromTranslation gt.translation.1 gt.translation.2.1
          gt.translation.2.2) ∧
    gm.toBaseMaterialGroup.set_modelview_matrix =
      Mat4Expr.matmul
        (Mat4Expr.matmul
          (Mat4Expr.matmul
            (Mat4Expr.identityRotate (RotationAngle.radians gm.rotation.2.2) 0 0 1)
            (Mat4Expr.identityRotate (RotationAngle.radians gm.rotation.2.1) 0 1 0))
          (Mat4Expr.identityRotate (RotationAngle.radians gm.rotation.1) 1 0 0))
        (Mat4Expr.fromTranslation gm.translation.1 gm.translation.2.1
          gm.translation.2.2) :=
  ⟨rfl, rfl, rfl⟩

/-- C9: equality comparison on either concrete group variant yields
`False` for every pair of instances — in particular two textured groups
with identical material and texture are unequal — and the hash is a
total function of (parent identity, texture id, texture target) for the
textured variant and of the parent identity alone for the untextured
variant. -/
theorem group_eq_always_false_hash_components (S : Type) :
    (∀ (g : TexturedMaterialGroup S) (A : Type) (o : A), g.eq o = false) ∧
    (∀ (g : MaterialGroup S) (A : Type) (o : A), g.eq o = false) ∧
    (∀ g1 g2 : TexturedMaterialGroup S, g1.material = g2.material →
      g1.texture = g2.texture → g1.eq g2 = false ∧ g2.eq g1 = false) ∧
    (∀ g1 g2 : TexturedMaterialGroup S, g1.parentId = g2.parentId →
      g1.texture.id = g2.texture.id → g1.texture.target = g2.texture.target →
      g1.hashValue = g2.hashValue) ∧
    (∀ g1 g2 : MaterialGroup S, g1.parentId = g2.parentId →
      g1.hashValue = g2.hashValue) := by
  refine ⟨fun g A o => rfl, fun g A o => rfl, fun g1 g2 _ _ => ⟨rfl, rfl⟩,
    ?_, ?_⟩
  · intro g1 g2 hp hi ht
    simp [TexturedMaterialGroup.hashValue, hp, hi, ht]
  · intro g1 g2 hp
    simp [MaterialGroup.hashValue, hp]

/-- C10: group equality is irreflexive, not merely discriminating: for
every group instance `g` of either variant and every operand `o`,
including `g` itself, the comparison yields `False`, so group equality
is not reflexive and hence not an equivalence relation. -/
theorem group_eq_not_reflexive (S : Type) (g : TexturedMaterialGroup S)
    (h : MaterialGroup S) :
    g.eq g = false ∧ h.eq h = false ∧
    (∀ (A : Type) (o : A), g.eq o = false ∧ h.eq o = false) ∧
    ¬ Reflexive (fun a b : TexturedMaterialGroup S => a.eq b = true) ∧
    ¬ Reflexive (fun a b : MaterialGroup S => a.eq b = true) ∧
    ¬ Equivalence (fun a b : TexturedMaterialGroup S => a.eq b = true) ∧
    ¬ Equivalence (fun a b : MaterialGroup S => a.eq b = true) := by
  refine ⟨rfl, rfl, fun A o => ⟨rfl, rfl⟩, ?_, ?_, ?_, ?_⟩
  · intro hrefl
    simpa [TexturedMaterialGroup.eq] using hrefl g
  · intro hrefl
    simpa [MaterialGroup.eq] using hrefl h
  · intro hequiv
    simpa [TexturedMaterialGroup.eq] using hequiv.refl g
  · intro hequiv
    simpa [MaterialGroup.eq] using hequiv.refl h

/-- When every decoder before `d` fails and `d` succeeds (each attempt
running at stream position 0), the loop returns the model decoded by `d`
and never invokes a candidate past `d`. -/
theorem loadLoop_first_success {M : Type} (d : ModelDecoder M) (m : M)
    (ds2 : List (ModelDecoder M)) (hok : (d.decode 0).1 = Except.ok m) :
    ∀ ds1 : List (ModelDecoder M),
      (∀ x ∈ ds1, ∃ e, (x.decode 0).1 = Except.error e) →
      ∀ (idx : Nat) (file : FileState), file.pos = 0 →
      ∀ acc,
        (loadLoop (ds1 ++ d :: ds2) idx file acc).1 = LoadResult.model m ∧
        ∀ i p, TraceEvent.decodeCall i p ∈
            (loadLoop (ds1 ++ d :: ds2) idx file acc).2.2 →
          i ≤ idx + ds1.length := by
  intro ds1
  induction ds1 with
  | nil =>
    intro _ idx file hpos acc
    constructor
    · simp [loadLoop, hpos, hok]
    · intro i p hp
      simp only [List.nil_append, loadLoop, hpos, hok, List.mem_singleton,
        TraceEvent.decodeCall.injEq] at hp
      omega
  | cons x ds1 ih =>
    intro hfail idx file hpos acc
    obtain ⟨e, he⟩ := hfail x (List.mem_cons_self x ds1)
    have hfail1 : ∀ y ∈ ds1, ∃ ey, (y.decode 0).1 = Except.error ey :=
      fun y hy => hfail y (List.mem_cons_of_mem x hy)
    have hrec := ih hfail1 (idx + 1) { file with pos := 0 } rfl
      (updateFirst acc e)
    constructor
    · simp only [List.cons_append, loadLoop, hpos, he]
      exact hrec.1
    · intro i p hp
      simp only [List.cons_append, loadLoop, hpos, he, List.mem_cons] at hp
      rcases hp with h0 | h0 | hmem
      · simp only [TraceEvent.decodeCall.injEq] at h0
        omega
      · exact absurd h0 (by simp)
      · have := hrec.2 i p hmem
        simp only [List.length_cons]
        omega

/-- C2: as soon as one decoder's decode call returns a model, `load`
returns that model, and no decoder later in the candidate order is ever
invoked (every decode call in the trace has an index at most that of the
succeeding decoder). -/
theorem load_returns_first_success_skips_rest {M : Type}
    (ds1 : List (ModelDecoder M)) (d : ModelDecoder M)
    (ds2 : List (ModelDecoder M)) (m : M)
    (hfail : ∀ x ∈ ds1, ∃ e, (x.decode 0).1 = Except.error e)
    (hok : (d.decode 0).1 = Except.ok m) :
    loadResult none (ds1 ++ d :: ds2) openedFile = LoadResult.model m ∧
    ∀ i p, TraceEvent.decodeCall i p ∈
        loadTrace none (ds1 ++ d :: ds2) openedFile →
      i ≤ ds1.length := by
  have h := loadLoop_first_success d m ds2 hok ds1 hfail 0 openedFile rfl none
  constructor
  · show (load none (ds1 ++ d :: ds2) openedFile).1 = _
    simp only [load]
    exact h.1
  · intro i p hp
    have htr : loadTrace none (ds1 ++ d :: ds2) openedFile =
        (loadLoop (ds1 ++ d :: ds2) 0 openedFile none).2.2 ++
          [TraceEvent.close] := rfl
    rw [htr] at hp
    rcases List.mem_append.1 hp with hmem | hmem
    · simpa using h.2 i p hmem
    · simp at hmem

/-- Witness for C2: candidates fail, succeed with model 42, fail; `load`
returns 42 and only candidates 0 and 1 are ever invoked. -/
theorem load_returns_first_success_skips_rest_witness :
    loadResult none [failDec (M := Nat) sampleExc1, okDec 42 5,
      failDec sampleExc2] openedFile = LoadResult.model 42 ∧
    ∀ i p, TraceEvent.decodeCall i p ∈
        loadTrace none [failDec (M := Nat) sampleExc1, okDec 42 5,
          failDec sampleExc2] openedFile →
      i ≤ [failDec (M := Nat) sampleExc1].length :=
  load_returns_first_success_skips_rest [failDec sampleExc1] (okDec 42 5)
    [failDec sampleExc2] 42
    (by
      intro x hx
      simp only [List.mem_singleton] at hx
      subst hx
      exact ⟨sampleExc1, rfl⟩)
    rfl

theorem loadLoop_calls_at_zero {M : Type} (ds : List (ModelDecoder M)) :
    ∀ (idx : Nat) (file : FileState) (acc : Option ModelDecodeException),
      file.pos = 0 →
      ∀ i p, TraceEvent.decodeCall i p ∈ (loadLoop ds idx file acc).2.2 →
        p = 0 := by
  induction ds with
  | nil =>
    intro idx file acc _ i p hp
    cases acc <;> simp [loadLoop] at hp
  | cons d rest ih =>
    intro idx file acc hpos i p hp
    cases h : (d.decode file.pos).1 with
    | ok m =>
      simp only [loadLoop, h, List.mem_singleton,
        TraceEvent.decodeCall.injEq] at hp
      rw [hp.2, hpos]
    | error e =>
      simp only [loadLoop, h, List.mem_cons] at hp
      rcases hp with h0 | h0 | hmem
      · simp only [TraceEvent.decodeCall.injEq] at h0
        rw [h0.2, hpos]
      · exact absurd h0 (by simp)
      · exact ih (idx + 1) { file with pos := 0 } (updateFirst acc e) rfl
          i p hmem

theorem loadLoop_call_next {M : Type} (ds : List (ModelDecoder M)) :
    ∀ (idx : Nat) (file : FileState) (acc : Option ModelDecodeException)
      (n i p : Nat),
      ((loadLoop ds idx file acc).2.2 ++ [TraceEvent.close]).get? n =
        some (TraceEvent.decodeCall i p) →
      ((loadLoop ds idx file acc).2.2 ++ [TraceEvent.close]).get? (n + 1) =
        some TraceEvent.seekZero ∨
      ((loadLoop ds idx file acc).2.2 ++ [TraceEvent.close]).get? (n + 1) =
        some TraceEvent.close := by
  induction ds with
  | nil =>
    intro idx file acc n i p hp
    rcases n with - | k <;> cases acc <;>
      simp only [loadLoop, List.nil_append, List.get?_cons_zero,
        List.get?_cons_succ, List.get?_nil] at hp <;>
      simp at hp
  | cons d rest ih =>
    intro idx file acc n i p hp
    cases h : (d.decode file.pos).1 with
    | ok m =>
      simp only [loadLoop, h, List.cons_append, List.nil_append] at hp ⊢
      rcases n with - | n1
      · right
        rfl
      · rcases n1 with - | k <;>
          simp only [List.get?_cons_succ, List.get?_cons_zero,
            List.get?_nil] at hp <;>
          simp at hp
    | error e =>
      simp only [loadLoop, h, List.cons_append] at hp ⊢
      rcases n with - | n1
      · left
        rfl
      · rcases n1 with - | k
        · simp at hp
        · simp only [List.get?_cons_succ] at hp ⊢
          exact ih (idx + 1) { file with pos := 0 } (updateFirst acc e)
            k i p hp

/-- C4: in `load` without an explicit decoder, every decode attempt
starts with the stream at offset 0 (the position is reset after each
failure), and every decode call in the trace is immediately followed by
a seek to offset zero (the attempt failed) or by the close of the file
(the attempt succeeded or the call is returning). -/
theorem load_attempts_start_at_offset_zero {M : Type}
    (ds : List (ModelDecoder M)) (file : FileState) (hpos : file.pos = 0) :
    (∀ i p, TraceEvent.decodeCall i p ∈ loadTrace none ds file → p = 0) ∧
    (∀ n i p,
      (loadTrace none ds file).get? n = some (TraceEvent.decodeCall i p) →
      (loadTrace none ds file).get? (n + 1) = some TraceEvent.seekZero ∨
      (loadTrace none ds file).get? (n + 1) = some TraceEvent.close) := by
  have htr : loadTrace none ds file =
      (loadLoop ds 0 file none).2.2 ++ [TraceEvent.close] := rfl
  constructor
  · intro i p hp
    rw [htr] at hp
    rcases List.mem_append.1 hp with hmem | hmem
    · exact loadLoop_calls_at_zero ds 0 file none hpos i p hmem
    · simp at hmem
  · intro n i p hp
    rw [htr] at hp ⊢
    exact loadLoop_call_next ds 0 file none n i p hp

/-- Witness for C4: a failing then a succeeding decoder on a freshly
opened file. -/
theorem load_attempts_start_at_offset_zero_witness :
    (∀ i p, TraceEvent.decodeCall i p ∈
        loadTrace none [failDec (M := Nat) sampleExc1, okDec 1 4]
          openedFile →
      p = 0) ∧
    (∀ n i p,
      (loadTrace none [failDec (M := Nat) sampleExc1, okDec 1 4]
          openedFile).get? n = some (TraceEvent.decodeCall i p) →
      (loadTrace none [failDec (M := Nat) sampleExc1, okDec 1 4]
          openedFile).get? (n + 1) = some TraceEvent.seekZero ∨
      (loadTrace none [failDec (M := Nat) sampleExc1, okDec 1 4]
          openedFile).get? (n + 1) = some TraceEvent.close) :=
  load_attempts_start_at_offset_zero [failDec sampleExc1, okDec 1 4]
    openedFile rfl

/-- Witness for C3: an explicitly supplied decoder that fails still
closes the file exactly once, with the close as the last action. -/
theorem load_closes_file_exactly_once_witness :
    (loadTrace (some (failDec (M := Unit) sampleExc1)) [] openedFile).count
      TraceEvent.close = 1 ∧
    (loadTrace (some (failDec (M := Unit) sampleExc1)) [] openedFile).getLast? =
      some TraceEvent.close ∧
    (loadFile (some (failDec (M := Unit) sampleExc1)) [] openedFile).closed =
      true :=
  load_closes_file_exactly_once (some (failDec sampleExc1)) [] openedFile

/-- Witness for C5: an empty candidate list raises the no-decoders error
and makes no decode attempt. -/
theorem load_no_decoders_error_iff_empty_candidates_witness :
    (loadResult (M := Unit) none [] openedFile = LoadResult.noDecodersError ↔
      (none : Option (ModelDecoder Unit)) = none ∧
      ([] : List (ModelDecoder Unit)) = []) ∧
    (∀ i p, TraceEvent.decodeCall i p ∉
      loadTrace (M := Unit) none [] openedFile) :=
  load_no_decoders_error_iff_empty_candidates none [] openedFile

/-- Witness for C6: setting the sample model's rotation to (90, 0, 0)
propagates it to every group, and likewise for the translation. -/
theorem model_transform_setters_fan_out_witness :
    ((sampleModel.setRotation (90, 0, 0)).rotation = (90, 0, 0) ∧
      ∀ g ∈ (sampleModel.setRotation (90, 0, 0)).groups,
        g.rotation = (90, 0, 0)) ∧
    ((sampleModel.setTranslation (90, 0, 0)).translation = (90, 0, 0) ∧
      ∀ g ∈ (sampleModel.setTranslation (90, 0, 0)).groups,
        g.translation = (90, 0, 0)) :=
  model_transform_setters_fan_out sampleModel (90, 0, 0)

/-- Witness for C7: on the sample model (whose batch is 1), assigning
batch 1 is a no-op, assigning `None` installs the fresh batch 3, and
assigning batch 2 migrates every pair into batch 2 with triangle
topology. -/
theorem model_batch_setter_cases_witness :
    sampleModel.setBatch (some sampleModel.batch) 3 = (sampleModel, []) ∧
    (sampleModel.setBatch none 3).1.batch = 3 ∧
    (sampleModel.setBatch (some 2) 3).1.batch = 2 ∧
    ∀ c ∈ (sampleModel.setBatch (some 2) 3).2,
      c.src = sampleModel.batch ∧ c.mode = PrimMode.triangles ∧ c.dst = 2 := by
  have h := model_batch_setter_cases sampleModel 3
  have h2 := h.2.2 2 (by decide)
  exact ⟨h.1, h.2.1.1, h2.1, h2.2.2⟩

/-- Witness for C8: the sample groups upload the fixed
rotate-then-translate composition. -/
theorem set_modelview_matrix_composition_witness :
    sampleGroup.toBaseMaterialGroup.set_modelview_matrix =
      Mat4Expr.matmul
        (Mat4Expr.matmul
          (Mat4Expr.matmul
            (Mat4Expr.identityRotate (RotationAngle.radians 0) 0 0 1)
            (Mat4Expr.identityRotate (RotationAngle.radians 0) 0 1 0))
          (Mat4Expr.identityRotate (RotationAngle.radians 0) 1 0 0))
        (Mat4Expr.fromTranslation 0 0 0) :=
  (set_modelview_matrix_composition sampleGroup.toBaseMaterialGroup
    sampleTexturedGroup sampleGroup).1

/-- Witness for C9: two textured groups built from the same material and
texture compare unequal in both directions while their hashes
coincide. -/
theorem group_eq_always_false_hash_components_witness :
    sampleTexturedGroup.eq sampleTexturedGroupB = false ∧
    sampleTexturedGroupB.eq sampleTexturedGroup = false ∧
    sampleTexturedGroup.hashValue = sampleTexturedGroupB.hashValue ∧
    sampleGroup.eq sampleTexturedGroup = false := by
  have h := group_eq_always_false_hash_components Int
  exact ⟨(h.2.2.1 sampleTexturedGroup sampleTexturedGroupB rfl rfl).1,
    (h.2.2.1 sampleTexturedGroup sampleTexturedGroupB rfl rfl).2,
    h.2.2.2.1 sampleTexturedGroup sampleTexturedGroupB rfl rfl rfl,
    h.2.1 sampleGroup _ sampleTexturedGroup⟩

/-- Witness for C10: the sample groups are unequal even to themselves,
and equality on either variant is not an equivalence relation. -/
theorem group_eq_not_reflexive_witness :
    sampleTexturedGroup.eq sampleTexturedGroup = false ∧
    sampleGroup.eq sampleGroup = false ∧
    ¬ Equivalence (fun a b : TexturedMaterialGroup Int => a.eq b = true) := by
  have h := group_eq_not_reflexive Int sampleTexturedGroup sampleGroup
  exact ⟨h.1, h.2.1, h.2.2.2.2.2.1⟩

end Theorems

end PygletModel
